import Mathlib

/-!
Shallow embedding of the html2pptx converter (`main.py`) and proofs about it.

The repository is a single Python script that turns a selected HTML subtree
into a PPTX presentation.  We embed the pure computational core:

* the content extractor `parse_tag_contents` over a model of the
  BeautifulSoup node tree (text nodes cover both plain text and comment
  nodes, since BeautifulSoup's `find_all(string=True)` and `.string`
  treat `Comment` as a `NavigableString`),
* the slide classifier and content partitioner of `fill_slide`,
* the image-geometry clamping arithmetic of `fill_slide`
  (python-pptx lengths are modelled as exact rationals; EMU quantisation
  and float rounding performed by the external library are abstracted away),
* the paragraph-emission / title-emphasis decision of `fill_slide`.

Slides are lists of strings, exactly as in `fill_slide`: image atoms are
the strings recognised by the regex `^img_src:(.*)$`, every other string
is a text atom.
-/

namespace Html2pptx

/-! ### Character-list string primitives

Python strings are sequences of code points, exactly `String.data` in
Lean.  The primitives below work on `String.data` so that every
definition evaluates inside the kernel; each models the corresponding
Python `str` operation. -/

/-- `s.startswith(p)` (used for regex prefix anchors). -/
def str_starts (p s : String) : Bool :=
  List.isPrefixOf p.data s.data

/-- `c in s` for a single character. -/
def str_has_char (s : String) (c : Char) : Bool :=
  s.data.contains c

/-- `s[n:]` (drop the first `n` code points). -/
def str_drop (s : String) (n : Nat) : String :=
  String.mk (s.data.drop n)

/-- `s[:-n]` (drop the last `n` code points). -/
def str_drop_right (s : String) (n : Nat) : String :=
  String.mk (s.data.take (s.data.length - n))

/-- Does `s` end with the single character `c`? -/
def str_last_is (s : String) (c : Char) : Bool :=
  s.data.getLast? == some c

/-- `len(s)`. -/
def str_len (s : String) : Nat :=
  s.data.length

/-- `s.strip()`: remove whitespace from both ends. -/
def str_strip (s : String) : String :=
  String.mk (((s.data.dropWhile Char.isWhitespace).reverse.dropWhile Char.isWhitespace).reverse)

/-- `sep.join(l)`. -/
def str_join (sep : String) : List String → String
  | [] => ""
  | [x] => x
  | x :: y :: xs => String.mk (x.data ++ sep.data ++ (str_join sep (y :: xs)).data)

/-- String concatenation by concatenating the underlying data. -/
def str_app (a b : String) : String :=
  String.mk (a.data ++ b.data)

/-! ### Constants (module header of `main.py`) -/

def SHORT_TEXT_LIMIT_CHARS : Nat := 75

def TITLE_FONT_PT : Nat := 75

def SLIDE_WIDTH_INCHES : ℚ := 10

def SLIDE_HEIGHT_INCHES : ℚ := 15/2

def SLIDE_SMALL_MARGIN_INCHES : ℚ := 1/4

def COLUMN_MARGIN_INCHES : ℚ := 1/10

def HEIGHT_MARGIN_INCHES : ℚ := 1/10

/-! ### Image-atom recognition

`fill_slide` recognises image atoms with `re.search("^img_src:(.*)$", s)`
(no MULTILINE flag).  That regex matches iff `s` starts with `img_src:`
and the remainder contains no newline, except possibly one single
trailing newline, which `.` cannot consume and `$` skips; the captured
group is the remainder without that trailing newline. -/

def img_src_match (s : String) : Option String :=
  if str_starts "img_src:" s then
    let rest := str_drop s 8
    if str_has_char rest '\n' then
      if str_last_is rest '\n' && !(str_has_char (str_drop_right rest 1) '\n') then
        some (str_drop_right rest 1)
      else
        none
    else
      some rest
  else
    none

/-! ### Slide classifier (`fill_slide`, lines 138-166) -/

/-- `image_count`: number of atoms matched by the `img_src` regex. -/
def image_count (slide : List String) : Nat :=
  slide.countP (fun s => (img_src_match s).isSome)

/-- `max_chars_in_strings`: running maximum of the lengths of the atoms the
regex does not match, starting from 0. -/
def max_chars_in_strings (slide : List String) : Nat :=
  slide.foldl
    (fun m s => if (img_src_match s).isSome then m else if str_len s > m then str_len s else m)
    0

/-- `empty_slide = image_count == 0 and max_chars_in_strings == 0`. -/
def empty_slide (slide : List String) : Bool :=
  decide (image_count slide = 0) && decide (max_chars_in_strings slide = 0)

/-- `with_multiple_images = image_count > 1`. -/
def with_multiple_images (slide : List String) : Bool :=
  decide (image_count slide > 1)

/-- `with_short_texts = max_chars_in_strings != 0 and
max_chars_in_strings <= SHORT_TEXT_LIMIT_CHARS`. -/
def with_short_texts (slide : List String) : Bool :=
  decide (max_chars_in_strings slide ≠ 0) &&
    decide (max_chars_in_strings slide ≤ SHORT_TEXT_LIMIT_CHARS)

/-- `column_layout = with_multiple_images and with_short_texts`. -/
def column_layout (slide : List String) : Bool :=
  with_multiple_images slide && with_short_texts slide

/-! ### Slide count (`slides_to_pptx` + the early return of `fill_slide`)

`fill_slide` adds exactly one slide to the presentation via
`prs.slides.add_slide` unless `empty_slide` holds, in which case it
returns before any layout work.  We track the presentation's slide count. -/

def fill_slide_count (prs : Nat) (slide : List String) : Nat :=
  if empty_slide slide then prs else prs + 1

def slides_to_pptx_count (slides : List (List String)) : Nat :=
  slides.foldl fill_slide_count 0

/-! ### Content partitioner (`fill_slide`, lines 168-207) -/

/-- The three mutable arrays of the partition loop. -/
structure PartState where
  images : List String
  texts : List (List String)
  col : List String
deriving DecidableEq

/-- One iteration of the `for slide_data in slide` partition loop. -/
def partition_step (cl : Bool) (st : PartState) (slide_data : String) : PartState :=
  match img_src_match slide_data with
  | some url =>
      if cl then
        let st1 :=
          if st.images.length = 0 ∧ st.col.length > 0 then
            { st with images := st.images ++ ["empty"], texts := st.texts ++ [st.col], col := [] }
          else if st.images.length > 0 then
            { st with texts := st.texts ++ [st.col], col := [] }
          else st
        { st1 with images := st1.images ++ [url] }
      else
        { st with images := st.images ++ [url] }
  | none =>
      { st with col := st.col ++ [slide_data] }

/-- The whole partition phase: the loop over the atoms followed by the
final flush (unconditional in column layout, only when text was found
otherwise). -/
def partition_final (cl : Bool) (slide : List String) : PartState :=
  let st := slide.foldl (partition_step cl) ⟨[], [], []⟩
  if cl then
    { st with texts := st.texts ++ [st.col] }
  else if st.col.length > 0 then
    { st with texts := st.texts ++ [st.col] }
  else st

/-! ### Column geometry (`fill_slide`, lines 209-214) -/

/-- `available_slide_width_inches`, computed from the partitioned
`images_array` (note: its `len` counts the `"empty"` placeholder too, and
with zero images the Python subtraction adds one gap instead of
dropping the term). -/
def available_slide_width_inches (images_array : List String) : ℚ :=
  SLIDE_WIDTH_INCHES - 2*SLIDE_SMALL_MARGIN_INCHES
    - ((images_array.length : ℚ) - 1)*COLUMN_MARGIN_INCHES

/-- `column_width_inches`: the available width divided by the number of
entries of `images_array` when that is positive. -/
def column_width_inches (images_array : List String) : ℚ :=
  if images_array.length > 0 then
    available_slide_width_inches images_array / (images_array.length : ℚ)
  else
    available_slide_width_inches images_array

/-- Column width of a whole slide: partition, then measure. -/
def slide_column_width (slide : List String) : ℚ :=
  column_width_inches (partition_final (column_layout slide) slide).images

/-! ### Image clamping (`fill_slide`, lines 239-246)

`r` is the aspect `width/height` of the picture as added, computed once
before the two clamp passes.  Pass 1 bounds the width by
`SLIDE_WIDTH_INCHES - 2*SLIDE_SMALL_MARGIN_INCHES`; pass 2, reading the
possibly rescaled height, bounds it by
`SLIDE_HEIGHT_INCHES - 2*SLIDE_SMALL_MARGIN_INCHES`. -/

def clamp_image_box (w h : ℚ) : ℚ × ℚ :=
  let r := w / h
  let wh1 : ℚ × ℚ :=
    if w > SLIDE_WIDTH_INCHES - 2*SLIDE_SMALL_MARGIN_INCHES then
      (SLIDE_WIDTH_INCHES - 2*SLIDE_SMALL_MARGIN_INCHES,
        (SLIDE_WIDTH_INCHES - 2*SLIDE_SMALL_MARGIN_INCHES) / r)
    else
      (w, h)
  if wh1.2 > SLIDE_HEIGHT_INCHES - 2*SLIDE_SMALL_MARGIN_INCHES then
    ((SLIDE_HEIGHT_INCHES - 2*SLIDE_SMALL_MARGIN_INCHES) * r,
      SLIDE_HEIGHT_INCHES - 2*SLIDE_SMALL_MARGIN_INCHES)
  else
    wh1

/-! ### Paragraph emission and title emphasis (`fill_slide`, lines 270-333) -/

inductive ParagraphAlignment where
  | CENTER : ParagraphAlignment
deriving DecidableEq

/-- One emitted paragraph: its text, plus the alignment and font size
that were explicitly set on it (the script only sets them on titles). -/
structure Paragraph where
  text : String
  alignment : Option ParagraphAlignment
  font_size_pt : Option Nat
deriving DecidableEq

/-- `is_title = len(images_array) == 0 and len(text_array) == 1 and
len(text_column) == 1`, evaluated while emitting a paragraph of
`text_column`. -/
def is_title (images_array : List String) (text_array : List (List String))
    (text_column : List String) : Bool :=
  decide (images_array.length = 0) && decide (text_array.length = 1) &&
    decide (text_column.length = 1)

/-- Emission of one paragraph: centered with `TITLE_FONT_PT` iff the
title test holds. -/
def make_paragraph (title : Bool) (text : String) : Paragraph :=
  { text := text
    alignment := if title then some ParagraphAlignment.CENTER else none
    font_size_pt := if title then some TITLE_FONT_PT else none }

/-- All paragraphs of a slide, one inner list per text column, in the
order the `for text in text_column` loop emits them. -/
def slide_paragraphs (slide : List String) : List (List Paragraph) :=
  let st := partition_final (column_layout slide) slide
  st.texts.map (fun text_column =>
    text_column.map (make_paragraph (is_title st.images st.texts text_column)))

/-- A paragraph got the title formatting: centered and 75 pt. -/
def emphasized (p : Paragraph) : Bool :=
  p.alignment == some ParagraphAlignment.CENTER &&
    p.font_size_pt == some TITLE_FONT_PT

/-! ### Node tree model for the content extractor

BeautifulSoup node trees are modelled by `Node`/`NodeList`.  A `text`
node stands for any `NavigableString` (plain text or `Comment`: the
script treats them identically).  An `elem` node carries its tag name,
its `src` attribute (only read on `img` tags) and its children in
document order. -/

mutual
inductive Node where
  | text (s : String) : Node
  | elem (name src : String) (children : NodeList) : Node
deriving DecidableEq

inductive NodeList where
  | nil : NodeList
  | cons (head : Node) (tail : NodeList) : NodeList
deriving DecidableEq
end

/-! BeautifulSoup's `.string`: a `NavigableString` is its own string; a
tag with exactly one child has the string of that child; any other tag
has none. -/

mutual
def node_string : Node → Option String
  | .text s => some s
  | .elem _ _ cs => tag_string cs

def tag_string : NodeList → Option String
  | .cons c .nil => node_string c
  | _ => none
end

/-- `find_all(string=True, recursive=False)`: the text nodes among the
immediate children, in order. -/
def direct_strings : NodeList → List String
  | .nil => []
  | .cons (.text s) rest => s :: direct_strings rest
  | .cons (.elem _ _ _) rest => direct_strings rest

/-! `find_all(string=True, recursive=True)`: all text nodes of the
subtree, in document (pre-)order. -/

mutual
def node_recursive_strings : Node → List String
  | .text s => [s]
  | .elem _ _ cs => recursive_strings cs

def recursive_strings : NodeList → List String
  | .nil => []
  | .cons c rest => node_recursive_strings c ++ recursive_strings rest
end

/-- The per-string sanitisation of `parse_tag_contents`: strip, blank
out fragments matching `re.match("^\\[if mso \\| IE\\].*", ...)`. -/
def sanitize_string (s : String) : String :=
  let t := str_strip s
  if str_starts "[if mso | IE]" t then "" else t

/-- Sanitise a list of strings, keeping only the non-empty results. -/
def sanitize_strings (l : List String) : List String :=
  l.filterMap (fun s =>
    let t := sanitize_string s
    if t = "" then none else some t)

/-! ### Content extractor (`parse_tag_contents`, lines 71-117) -/

mutual
/-- `parse_tag_contents(tag)`: walk the children of `tag`. -/
def parse_tag_contents : Node → List String
  | .text _ => []
  | .elem _ _ cs => parse_children cs

def parse_children : NodeList → List String
  | .nil => []
  | .cons c rest => parse_child c ++ parse_children rest

/-- The body of the `for children_content_tag in tag.children` loop:
the atoms contributed by one child. -/
def parse_child : Node → List String
  | .text _ => []
  | .elem name src cs =>
      if name = "img" then
        [str_app "img_src:" src]
      else
        match tag_string cs with
        | some s => if str_strip s ≠ "" then [str_strip s] else []
        | none =>
            let sanitized_direct_tag_strings := sanitize_strings (direct_strings cs)
            let sanitized_recursive_tag_strings := sanitize_strings (recursive_strings cs)
            if sanitized_direct_tag_strings.length > 0 then
              [str_join " " sanitized_recursive_tag_strings]
            else
              parse_children cs
end

/-! ### `html_to_slides` (lines 56-64) -/

inductive ConvError where
  | ContentNotFound : ConvError
deriving DecidableEq

def children_of : Node → NodeList
  | .text _ => .nil
  | .elem _ _ cs => cs

/-- The `for parent_content_tag in useful_content[0].children` loop:
one slide per element child. -/
def element_slides : NodeList → List (List String)
  | .nil => []
  | .cons (.text _) rest => element_slides rest
  | .cons (.elem name src cs) rest =>
      parse_tag_contents (.elem name src cs) :: element_slides rest

/-- `html_to_slides`, taking the external selector's match list as
input.  The unconditional `useful_content[0]` of the script faults on an
empty match list; the fallible indexing is embedded as an `Except` whose
error is that content-not-found condition. -/
def html_to_slides (useful_content : List Node) :
    Except ConvError (List (List String)) :=
  match useful_content with
  | [] => Except.error ConvError.ContentNotFound
  | first :: _ => Except.ok (element_slides (children_of first))

/-!
## Helper lemmas
-/

/-- The partition loop invariant in column layout: either no image and no
completed text column exists yet, or the images run exactly one ahead of
the completed text columns. -/
def PartPaired (st : PartState) : Prop :=
  (st.images = [] ∧ st.texts = []) ∨ st.images.length = st.texts.length + 1

theorem partition_step_paired (st : PartState) (a : String) (h : PartPaired st) :
    PartPaired (partition_step true st a) := by
  unfold PartPaired partition_step
  cases himg : img_src_match a with
  | none => simpa [PartPaired] using h
  | some url =>
      split_ifs with h1 h2 <;>
        rcases h with ⟨hi, ht⟩ | hlen <;>
        simp_all

theorem partition_foldl_paired (l : List String) :
    ∀ st : PartState, PartPaired st → PartPaired (l.foldl (partition_step true) st) := by
  induction l with
  | nil => intro st h; simpa using h
  | cons a l ih =>
      intro st h
      rw [List.foldl_cons]
      exact ih _ (partition_step_paired st a h)

theorem partition_step_images_ne (cl : Bool) (st : PartState) (a : String)
    (h : st.images ≠ []) : (partition_step cl st a).images ≠ [] := by
  unfold partition_step
  cases himg : img_src_match a with
  | none => simpa using h
  | some url =>
      split_ifs <;> simp

theorem partition_foldl_images_ne (cl : Bool) (l : List String) :
    ∀ st : PartState, st.images ≠ [] →
      (l.foldl (partition_step cl) st).images ≠ [] := by
  induction l with
  | nil => intro st h; simpa using h
  | cons a l ih =>
      intro st h
      rw [List.foldl_cons]
      exact ih _ (partition_step_images_ne cl st a h)

theorem partition_foldl_some_image (l : List String) :
    ∀ st : PartState, 0 < image_count l →
      (l.foldl (partition_step true) st).images ≠ [] := by
  induction l with
  | nil => intro st h; simp [image_count] at h
  | cons a l ih =>
      intro st h
      rw [List.foldl_cons]
      cases himg : img_src_match a with
      | none =>
          apply ih
          simpa [image_count, List.countP_cons, himg] using h
      | some url =>
          apply partition_foldl_images_ne
          unfold partition_step
          rw [himg]
          split_ifs <;> simp

/-- In column layout, once an image exists the loop appends exactly one
entry to `images_array` per image atom and never another placeholder. -/
theorem partition_foldl_images_length (l : List String) :
    ∀ st : PartState, st.images ≠ [] →
      ((l.foldl (partition_step true) st).images).length =
        st.images.length + image_count l := by
  induction l with
  | nil => intro st _; simp [image_count]
  | cons a l ih =>
      intro st hne
      rw [List.foldl_cons]
      cases himg : img_src_match a with
      | none =>
          have : partition_step true st a = { st with col := st.col ++ [a] } := by
            unfold partition_step; rw [himg]
          rw [this, ih _ (by simpa using hne)]
          simp [image_count, List.countP_cons, himg]
      | some url =>
          have hlen : 0 < st.images.length := List.length_pos.mpr hne
          have : partition_step true st a =
              { st with images := st.images ++ [url], texts := st.texts ++ [st.col], col := [] } := by
            unfold partition_step
            rw [himg]
            simp only [if_pos]
            rw [if_neg (by omega), if_pos hlen]
          rw [this, ih _ (by simp)]
          simp [image_count, List.countP_cons, himg]
          omega

/-- Images already collected are never removed by later loop iterations. -/
theorem partition_foldl_images_grow (cl : Bool) (l : List String) :
    ∀ st : PartState, ∃ tl : List String,
      (l.foldl (partition_step cl) st).images = st.images ++ tl := by
  induction l with
  | nil => intro st; exact ⟨[], by simp⟩
  | cons a l ih =>
      intro st
      rw [List.foldl_cons]
      have hstep : ∃ tl0 : List String, (partition_step cl st a).images = st.images ++ tl0 := by
        unfold partition_step
        cases himg : img_src_match a with
        | none => exact ⟨[], by simp⟩
        | some url =>
            split_ifs
            · exact ⟨["empty", url], by simp⟩
            · exact ⟨[url], by simp⟩
            · exact ⟨[url], by simp⟩
            · exact ⟨[url], by simp⟩
      obtain ⟨tl0, h0⟩ := hstep
      obtain ⟨tl1, h1⟩ := ih (partition_step cl st a)
      exact ⟨tl0 ++ tl1, by rw [h1, h0, List.append_assoc]⟩

/-- In the generic branch the loop simply collects the regex captures. -/
theorem partition_foldl_images_generic (l : List String) :
    ∀ st : PartState,
      (l.foldl (partition_step false) st).images =
        st.images ++ l.filterMap img_src_match := by
  induction l with
  | nil => intro st; simp
  | cons a l ih =>
      intro st
      rw [List.foldl_cons, List.filterMap_cons]
      cases himg : img_src_match a with
      | none =>
          have : partition_step false st a = { st with col := st.col ++ [a] } := by
            unfold partition_step; rw [himg]
          rw [this, ih]
      | some url =>
          have : partition_step false st a = { st with images := st.images ++ [url] } := by
            simp [partition_step, himg]
          rw [this, ih]
          simp

/-- The final flush of `partition_final` never touches `images_array`. -/
theorem partition_final_images (cl : Bool) (slide : List String) :
    (partition_final cl slide).images =
      (slide.foldl (partition_step cl) ⟨[], [], []⟩).images := by
  simp only [partition_final]
  split_ifs <;> rfl

theorem image_count_pos_of_column_layout (slide : List String)
    (h : column_layout slide = true) : 0 < image_count slide := by
  unfold column_layout with_multiple_images at h
  simp only [Bool.and_eq_true, decide_eq_true_eq] at h
  omega

/-- A paragraph gets the centered 75 pt formatting exactly when it was
emitted with the title flag. -/
theorem emphasized_make_paragraph (b : Bool) (t : String) :
    emphasized (make_paragraph b t) = b := by
  cases b <;> simp [emphasized, make_paragraph]

theorem is_title_eq_true (images_array : List String)
    (text_array : List (List String)) (text_column : List String) :
    is_title images_array text_array text_column = true ↔
      (images_array.length = 0 ∧ text_array.length = 1 ∧ text_column.length = 1) := by
  simp [is_title, and_assoc]

/-!
## Claim theorems
-/

/-- C1: for every slide atom sequence the layout mode is Column iff the
number of image atoms is strictly greater than 1 and the maximum length
of any single text atom is strictly positive and at most 75 characters;
otherwise the mode is Generic.  The 75-character boundary is inclusive:
two images plus a 75-character text atom give Column, while a
76-character atom gives Generic. -/
theorem column_layout_decision :
    (∀ slide : List String,
      column_layout slide = true ↔
        (image_count slide > 1 ∧ 0 < max_chars_in_strings slide ∧
          max_chars_in_strings slide ≤ 75)) ∧
    column_layout ["img_src:a", "img_src:b", String.mk (List.replicate 75 'x')] = true ∧
    column_layout ["img_src:a", "img_src:b", String.mk (List.replicate 76 'x')] = false := by
  refine ⟨fun slide => ?_, by decide, by decide⟩
  simp [column_layout, with_multiple_images, with_short_texts, SHORT_TEXT_LIMIT_CHARS,
    Nat.pos_iff_ne_zero]

/-- C2: for every slide atom sequence partitioned in Column mode, the
resulting images list and text-columns list have equal length (each
image, placeholder included, paired with the text column of the same
index). -/
theorem column_partition_pairing (slide : List String)
    (h : column_layout slide = true) :
    (partition_final (column_layout slide) slide).images.length =
      (partition_final (column_layout slide) slide).texts.length := by
  rw [h]
  have hic : 0 < image_count slide := image_count_pos_of_column_layout slide h
  have hpaired : PartPaired (slide.foldl (partition_step true) ⟨[], [], []⟩) :=
    partition_foldl_paired slide ⟨[], [], []⟩ (Or.inl ⟨rfl, rfl⟩)
  have hne : (slide.foldl (partition_step true) ⟨[], [], []⟩).images ≠ [] :=
    partition_foldl_some_image slide ⟨[], [], []⟩ hic
  rcases hpaired with ⟨hi, _⟩ | hlen
  · exact absurd hi hne
  · simp [partition_final, hlen]

/-- Witness for C2 on a concrete Column-mode slide. -/
theorem column_partition_pairing_example :
    (partition_final (column_layout ["img_src:a", "x", "img_src:b"])
        ["img_src:a", "x", "img_src:b"]).images.length =
      (partition_final (column_layout ["img_src:a", "x", "img_src:b"])
        ["img_src:a", "x", "img_src:b"]).texts.length :=
  column_partition_pairing ["img_src:a", "x", "img_src:b"] (by decide)

/-- C3: a slide with zero image atoms and maximum text length zero is
dropped before any layout work (its `fill_slide` call leaves the
presentation unchanged), and the output presentation's slide count is
the number of non-degenerate slides. -/
theorem degenerate_slides_dropped :
    (∀ slide : List String, image_count slide = 0 → max_chars_in_strings slide = 0 →
      ∀ prs : Nat, fill_slide_count prs slide = prs) ∧
    (∀ slides : List (List String),
      slides_to_pptx_count slides =
        (slides.filter (fun s => !(empty_slide s))).length) := by
  constructor
  · intro slide h1 h2 prs
    simp [fill_slide_count, empty_slide, h1, h2]
  · intro slides
    have key : ∀ n : Nat, slides.foldl fill_slide_count n =
        n + (slides.filter (fun s => !(empty_slide s))).length := by
      induction slides with
      | nil => intro n; simp
      | cons s l ih =>
          intro n
          rw [List.foldl_cons, List.filter_cons]
          by_cases he : empty_slide s = true
          · simp [fill_slide_count, he, ih]
          · simp only [Bool.not_eq_true] at he
            simp [fill_slide_count, he, ih]
            omega
    simpa [slides_to_pptx_count] using key 0

/-- Witness for C3: a slide holding one empty text atom is degenerate
and leaves the slide count unchanged. -/
theorem degenerate_slides_dropped_example :
    fill_slide_count 3 [""] = 3 :=
  degenerate_slides_dropped.1 [""] (by decide) (by decide) 3

/-- C8: when the selector matches no element, `html_to_slides` surfaces
the content-not-found condition (the fallible `useful_content[0]`
indexing) to its caller and produces no partial result. -/
theorem selector_no_match_content_not_found (useful_content : List Node)
    (h : useful_content = []) :
    html_to_slides useful_content = Except.error ConvError.ContentNotFound := by
  subst h
  rfl

/-- Witness for C8 at the empty match list. -/
theorem selector_no_match_content_not_found_example :
    html_to_slides [] = Except.error ConvError.ContentNotFound :=
  selector_no_match_content_not_found [] rfl

/-- C4: for every image with positive native width and height, after the
two clamp passes the width/height quotient equals the original aspect
quotient, the final width is at most `9.5` and the final height at most
`7` (slide-relative inches). -/
theorem clamp_preserves_aspect_and_bounds (w h : ℚ) (hw : 0 < w) (hh : 0 < h) :
    (clamp_image_box w h).1 / (clamp_image_box w h).2 = w / h ∧
    (clamp_image_box w h).1 ≤ 19/2 ∧ (clamp_image_box w h).2 ≤ 7 := by
  have hr : 0 < w / h := div_pos hw hh
  have e1 : SLIDE_WIDTH_INCHES - 2*SLIDE_SMALL_MARGIN_INCHES = 19/2 := by
    norm_num [SLIDE_WIDTH_INCHES, SLIDE_SMALL_MARGIN_INCHES]
  have e2 : SLIDE_HEIGHT_INCHES - 2*SLIDE_SMALL_MARGIN_INCHES = 7 := by
    norm_num [SLIDE_HEIGHT_INCHES, SLIDE_SMALL_MARGIN_INCHES]
  simp only [clamp_image_box, e1, e2]
  split_ifs with h1 h2 h2
  · -- both passes fired
    refine ⟨by ring, ?_, le_refl 7⟩
    rw [gt_iff_lt, lt_div_iff₀ hr] at h2
    linarith
  · -- only the width pass fired
    refine ⟨?_, le_refl _, le_of_not_lt (by simpa using h2)⟩
    rw [div_div_eq_mul_div, mul_comm, mul_div_assoc,
      div_self (by norm_num : (19/2 : ℚ) ≠ 0), mul_one]
  · -- only the height pass fired
    refine ⟨by ring, ?_, le_refl 7⟩
    have hwh : w / h < w / 7 := by
      apply div_lt_div_of_pos_left hw (by norm_num)
      exact h2
    have hx : 7 * (w / 7) = w := by ring
    have hw1 : w ≤ 19/2 := le_of_not_lt (by simpa using h1)
    linarith
  · -- no pass fired
    exact ⟨rfl, le_of_not_lt (by simpa using h1), le_of_not_lt (by simpa using h2)⟩

/-- Witness for C4 at a 20 by 1 image: pass 1 rescales it to
`(19/2, 19/40)`, pass 2 leaves it alone. -/
theorem clamp_preserves_aspect_and_bounds_example :
    (clamp_image_box 20 1).1 / (clamp_image_box 20 1).2 = 20 / 1 ∧
    (clamp_image_box 20 1).1 ≤ 19/2 ∧ (clamp_image_box 20 1).2 ≤ 7 :=
  clamp_preserves_aspect_and_bounds 20 1 (by norm_num) (by norm_num)

/-- C5 counterexample: on a slide with zero images the `(n-1)*gap` term
is not dropped: the computed column width is `9.6`, not the `9.5` the
claimed formula (`availableWidth = 9.5`, divided by `max(0,1) = 1`)
yields. -/
theorem column_width_zero_images_cex :
    slide_column_width ["hello"] = 48/5 ∧ (48/5 : ℚ) ≠ 19/2 := by
  constructor
  · have himg : (partition_final (column_layout ["hello"]) ["hello"]).images = [] := by
      decide
    simp [slide_column_width, himg, column_width_inches, available_slide_width_inches,
      SLIDE_WIDTH_INCHES, SLIDE_SMALL_MARGIN_INCHES, COLUMN_MARGIN_INCHES]
    norm_num
  · norm_num

/-- C5 amended: the width formula divides by the length of the
partitioned images array (which can also count a placeholder).  For a
Column-mode slide whose first atom is an image no placeholder exists, so
the divisor is the image-atom count and
`columnWidth = (slideWidth - 2*margin - (imageCount-1)*gap)/imageCount`;
with two images that is `(10 - 0.5 - 0.1)/2 = 4.7`. -/
theorem column_width_formula (a u : String) (rest : List String)
    (h1 : column_layout (a :: rest) = true)
    (h2 : img_src_match a = some u) :
    slide_column_width (a :: rest) =
      (SLIDE_WIDTH_INCHES - 2*SLIDE_SMALL_MARGIN_INCHES
          - ((image_count (a :: rest) : ℚ) - 1) * COLUMN_MARGIN_INCHES)
        / (image_count (a :: rest) : ℚ) := by
  have hstep : partition_step true ⟨[], [], []⟩ a = ⟨[u], [], []⟩ := by
    simp [partition_step, h2]
  have hlen : ((a :: rest).foldl (partition_step true) ⟨[], [], []⟩).images.length =
      image_count (a :: rest) := by
    rw [List.foldl_cons, hstep,
      partition_foldl_images_length rest ⟨[u], [], []⟩ (by simp)]
    simp [image_count, List.countP_cons, h2]
    omega
  have hpos : 0 < image_count (a :: rest) :=
    image_count_pos_of_column_layout _ h1
  unfold slide_column_width column_width_inches available_slide_width_inches
  rw [h1, partition_final_images, hlen, if_pos hpos]

/-- Witness for C5: scenario B, two images and two short texts. -/
theorem column_width_formula_example :
    slide_column_width ["img_src:a", "ok", "img_src:b", "fine"] = 47/10 := by
  have h := column_width_formula "img_src:a" "a" ["ok", "img_src:b", "fine"]
    (by decide) (by decide)
  rw [h]
  have hic : image_count ["img_src:a", "ok", "img_src:b", "fine"] = 2 := by decide
  rw [hic]
  norm_num [SLIDE_WIDTH_INCHES, SLIDE_SMALL_MARGIN_INCHES, COLUMN_MARGIN_INCHES]

/-- Characterisation of a successful regex match: the atom starts with
`img_src:` and the capture is the remainder (without a trailing
newline when one is present). -/
theorem img_src_match_some_char (s u : String) (h : img_src_match s = some u) :
    str_starts "img_src:" s = true ∧
    (u = str_drop s 8 ∨ u = str_drop_right (str_drop s 8) 1) := by
  simp only [img_src_match] at h
  split_ifs at h with hs hc he
  · exact ⟨hs, Or.inr (Option.some.inj h).symm⟩
  · exact ⟨hs, Or.inl (Option.some.inj h).symm⟩

/-- C10 counterexample: the atom `"img_src:a\nb"` begins with the
`img_src:` prefix, yet the regex rejects it (interior newline), so it is
not counted as an image and its length enters the text statistic. -/
theorem img_prefix_newline_cex :
    str_starts "img_src:" "img_src:a\nb" = true ∧
    image_count ["img_src:a\nb"] = 0 ∧
    max_chars_in_strings ["img_src:a\nb"] = 11 :=
  ⟨by decide, by decide, by decide⟩

/-- C10 amended: an atom the regex matches (it begins with `img_src:`
and its remainder holds no newline except an optional trailing one)
is counted in `image_count`, excluded from `max_chars_in_strings`, and
its captured remainder — the atom with the prefix (and the trailing
newline, if any) stripped — is placed into the images array in both
layout branches. -/
theorem img_prefix_atom_as_image (s u : String) (rest : List String)
    (h : img_src_match s = some u) :
    str_starts "img_src:" s = true ∧
    (u = str_drop s 8 ∨ u = str_drop_right (str_drop s 8) 1) ∧
    image_count (s :: rest) = image_count rest + 1 ∧
    max_chars_in_strings (s :: rest) = max_chars_in_strings rest ∧
    (partition_final false (s :: rest)).images =
      u :: (partition_final false rest).images ∧
    (∀ cl : Bool, u ∈ (partition_final cl (s :: rest)).images) := by
  obtain ⟨hs, hu⟩ := img_src_match_some_char s u h
  refine ⟨hs, hu, ?_, ?_, ?_, ?_⟩
  · simp [image_count, List.countP_cons, h]
  · simp [max_chars_in_strings, h]
  · rw [partition_final_images, partition_final_images,
      partition_foldl_images_generic, partition_foldl_images_generic]
    simp [List.filterMap_cons, h]
  · intro cl
    rw [partition_final_images]
    have hstep : partition_step cl ⟨[], [], []⟩ s = ⟨[u], [], []⟩ := by
      cases cl <;> simp [partition_step, h]
    rw [List.foldl_cons, hstep]
    obtain ⟨tl, htl⟩ := partition_foldl_images_grow cl rest ⟨[u], [], []⟩
    rw [htl]
    simp

/-- Witness for C10 at the atom `"img_src:pic.png"`. -/
theorem img_prefix_atom_as_image_example :
    image_count ["img_src:pic.png", "hi"] = image_count ["hi"] + 1 ∧
    max_chars_in_strings ["img_src:pic.png", "hi"] = max_chars_in_strings ["hi"] ∧
    "pic.png" ∈ (partition_final true ["img_src:pic.png", "hi"]).images := by
  have h := img_prefix_atom_as_image "img_src:pic.png" "pic.png" ["hi"] (by decide)
  exact ⟨h.2.2.1, h.2.2.2.1, h.2.2.2.2.2 true⟩

/-- C6: an element child that carries a surviving direct text node
(so the rich-inline branch fires) contributes exactly one text atom, the
space-join of the sanitised text nodes of its whole subtree, and the
extractor does not recurse into it. -/
theorem inline_text_merging (name src : String) (cs : NodeList)
    (hname : name ≠ "img")
    (hstring : tag_string cs = none)
    (hdirect : sanitize_strings (direct_strings cs) ≠ []) :
    parse_child (Node.elem name src cs) =
      [str_join " " (sanitize_strings (recursive_strings cs))] := by
  have hlen : (sanitize_strings (direct_strings cs)).length > 0 :=
    List.length_pos.mpr hdirect
  simp [parse_child, hname, hstring, hlen]

/-- Witness for C6: children `<b>Hello</b> world` yield the single
merged atom `"Hello world"`. -/
theorem inline_text_merging_example :
    parse_child (Node.elem "p" ""
        (NodeList.cons (Node.elem "b" "" (NodeList.cons (Node.text "Hello") NodeList.nil))
          (NodeList.cons (Node.text " world") NodeList.nil))) = ["Hello world"] := by
  rw [inline_text_merging "p" "" _ (by decide) (by decide) (by decide)]
  decide

/-- C7 counterexample: a tag whose entire string is the conditional
fragment `"[if mso | IE]endif"` goes through the single-string branch,
which does not filter conditional fragments: an atom is emitted. -/
theorem conditional_comment_single_string_cex :
    parse_child (Node.elem "p" ""
        (NodeList.cons (Node.text "[if mso | IE]endif") NodeList.nil)) =
      ["[if mso | IE]endif"] ∧
    parse_child (Node.elem "p" ""
        (NodeList.cons (Node.text "[if mso | IE]endif") NodeList.nil)) ≠ [] :=
  ⟨by decide, by decide⟩

/-- C7 amended: a trimmed fragment beginning with `[if mso | IE]` is
replaced with the empty string and dropped wherever the mixed-content
branch collects strings (direct or recursive), so such a fragment
yields no atom there; but when the fragment is a tag's entire single
string, the single-string branch emits its trimmed value as an atom. -/
theorem conditional_comment_filtering (s : String)
    (hmark : str_starts "[if mso | IE]" (str_strip s) = true) :
    sanitize_string s = "" ∧
    (∀ l : List String, sanitize_strings (s :: l) = sanitize_strings l) ∧
    (∀ name src : String, name ≠ "img" →
      parse_child (Node.elem name src
        (NodeList.cons (Node.elem "b" "" NodeList.nil)
          (NodeList.cons (Node.text s) NodeList.nil))) = []) ∧
    (∀ name src : String, name ≠ "img" → str_strip s ≠ "" →
      parse_child (Node.elem name src
        (NodeList.cons (Node.text s) NodeList.nil)) = [str_strip s]) := by
  have hz : sanitize_string s = "" := by
    unfold sanitize_string
    rw [if_pos hmark]
  refine ⟨hz, ?_, ?_, ?_⟩
  · intro l
    simp [sanitize_strings, List.filterMap_cons, hz]
  · intro name src hname
    simp [parse_child, parse_children, tag_string, direct_strings,
      sanitize_strings, hname, hz]
  · intro name src hname hne
    simp [parse_child, tag_string, node_string, hname, hne]

/-- Witness for C7 on the fragment `"[if mso | IE]x"`. -/
theorem conditional_comment_filtering_example :
    sanitize_string "[if mso | IE]x" = "" ∧
    sanitize_strings ["[if mso | IE]x", "hi"] = sanitize_strings ["hi"] ∧
    parse_child (Node.elem "p" ""
      (NodeList.cons (Node.elem "b" "" NodeList.nil)
        (NodeList.cons (Node.text "[if mso | IE]x") NodeList.nil))) = [] := by
  have h := conditional_comment_filtering "[if mso | IE]x" (by decide)
  exact ⟨h.1, h.2.1 ["hi"], h.2.2.1 "p" "" (by decide)⟩

/-- C9: an emitted paragraph carries the title emphasis (centered,
75 pt) iff the whole slide has no image, exactly one text column, and
that column holds exactly one text atom; the emphasis decision is a
function of the slide, so any two emitted paragraphs agree on it. -/
theorem title_emphasis_condition (slide : List String) :
    (∀ col ∈ slide_paragraphs slide, ∀ p ∈ col,
      (emphasized p = true ↔
        ((partition_final (column_layout slide) slide).images.length = 0 ∧
          (partition_final (column_layout slide) slide).texts.length = 1 ∧
          col.length = 1))) ∧
    (∀ col1 ∈ slide_paragraphs slide, ∀ col2 ∈ slide_paragraphs slide,
      ∀ p1 ∈ col1, ∀ p2 ∈ col2, emphasized p1 = emphasized p2) := by
  constructor
  · intro col hcol p hp
    simp only [slide_paragraphs, List.mem_map] at hcol
    obtain ⟨tc, htc, rfl⟩ := hcol
    simp only [List.mem_map] at hp
    obtain ⟨t, ht, rfl⟩ := hp
    rw [emphasized_make_paragraph, List.length_map]
    exact is_title_eq_true _ _ _
  · intro col1 h1 col2 h2 p1 hp1 p2 hp2
    simp only [slide_paragraphs, List.mem_map] at h1 h2
    obtain ⟨tc1, htc1, rfl⟩ := h1
    obtain ⟨tc2, htc2, rfl⟩ := h2
    simp only [List.mem_map] at hp1 hp2
    obtain ⟨t1, ht1, rfl⟩ := hp1
    obtain ⟨t2, ht2, rfl⟩ := hp2
    rw [emphasized_make_paragraph, emphasized_make_paragraph]
    by_cases himg : (partition_final (column_layout slide) slide).images.length = 0
    · by_cases htex : (partition_final (column_layout slide) slide).texts.length = 1
      · obtain ⟨tc, htc⟩ := List.length_eq_one.mp htex
        rw [htc, List.mem_singleton] at htc1 htc2
        rw [htc1, htc2]
      · simp [is_title, htex]
    · simp [is_title, himg]

/-- Witness for C9 on the one-atom slide `["hello"]`. -/
theorem title_emphasis_condition_example :
    emphasized (make_paragraph true "hello") = true ↔
      ((partition_final (column_layout ["hello"]) ["hello"]).images.length = 0 ∧
        (partition_final (column_layout ["hello"]) ["hello"]).texts.length = 1 ∧
        ([make_paragraph true "hello"] : List Paragraph).length = 1) :=
  (title_emphasis_condition ["hello"]).1 [make_paragraph true "hello"] (by decide)
    (make_paragraph true "hello") (by decide)

end Html2pptx
